import Mathlib

/-!
# Verification of `fetch_news.py` (health-news-dashboard-1b)

A shallow embedding of the budget-governed retrieval loop of
`src/fetch_news.py` together with proofs of the behavioural claims about
it.  Pure helpers (`dedup_key`, `classify_region`, `is_transient_error`,
the schema-unsupported heuristic, the report assembly) are translated
directly; the network is modelled by an oracle mapping each issued
request (identified by its sequence number and whether it carries the
structured-output schema) to a validated outcome.  Machine-level details
that the claims do not touch (timestamps, stderr logging, `time.sleep`
pacing, the exact `reason` phrase inside `str(HTTPError)`) are elided
and noted where relevant.  String functions model the ASCII fragment of
Python's `str.lower`, `str.strip` and the `\s` character class, which is
the fragment exercised by the fixed keyword lists of the program.
-/

/-! ## String helpers (ASCII models of the Python primitives) -/

/-- ASCII whitespace, matching Python's `\s` class on ASCII input. -/
def pyIsSpace (c : Char) : Bool :=
  c = ' ' || c = '\t' || c = '\n' || c = '\x0d' || c = '\x0b' || c = '\x0c'

/-- Model of `str.lower` (ASCII). -/
def pyLower (s : String) : String :=
  String.mk (s.toList.map Char.toLower)

/-- Model of `str.strip` (ASCII whitespace). -/
def pyStrip (s : String) : String :=
  String.mk (((s.toList.dropWhile pyIsSpace).reverse.dropWhile pyIsSpace).reverse)

/-- Collapse adjacent spaces; used after mapping every whitespace char to
a space, so the composite models `re.sub(r"\s+", " ", ·)`. -/
def squeezeSpaces : List Char → List Char
  | [] => []
  | [c] => [c]
  | a :: b :: rest =>
    if a = ' ' && b = ' ' then squeezeSpaces (b :: rest)
    else a :: squeezeSpaces (b :: rest)

/-- Model of `re.sub(r"\s+", " ", l)`. -/
def collapseWs (l : List Char) : List Char :=
  squeezeSpaces (l.map (fun c => if pyIsSpace c then ' ' else c))

/-- Does `l` start with `pre`? -/
def listStarts : List Char → List Char → Bool
  | _, [] => true
  | [], _ :: _ => false
  | a :: as, b :: bs => a = b && listStarts as bs

/-- Does `needle` occur as a contiguous run inside `hay`? -/
def listHasSub (needle : List Char) : List Char → Bool
  | [] => needle.isEmpty
  | c :: cs => listStarts (c :: cs) needle || listHasSub needle cs

/-- Containment test: `hasSub hay needle` is substring containment on strings. -/
def hasSub (hay needle : String) : Bool :=
  listHasSub needle.toList hay.toList

/-! ## Configuration constants (`fetch_news.py` lines 28-33) -/

def CALL_BUDGET : Nat := 20
def CONSECUTIVE_FAIL_LIMIT : Nat := 5

/-! ## Regex classification patterns (lines 67-89)

The three patterns are alternations of literal words (plus one `\s*`
inside `hong\s*kong`), compiled with `re.IGNORECASE`; on input that the
surrounding code has already lower-cased this is exactly a disjunction
of substring tests, which is how they are embedded here. -/

def thaiWords : List String :=
  ["thai", "bangkok", "chula", "mahidol", "siriraj", "bumrungrad", "bdi", "moph"]

def asiaWords : List String :=
  ["asean", "singapore", "japan", "korea", "china", "india", "vietnam",
   "indonesia", "philippines", "malaysia", "taiwan", "asia"]

/-- Does `l` start with `hong`, then zero or more whitespace, then `kong`?
Models the `hong\s*kong` alternative (greedy `\s*` never needs
backtracking here because `kong` starts with a non-space). -/
def hkHere (l : List Char) : Bool :=
  listStarts l "hong".toList &&
    listStarts ((l.drop 4).dropWhile pyIsSpace) "kong".toList

/-- Does `hong\s*kong` match anywhere in `l`? -/
def hkAny : List Char → Bool
  | [] => false
  | c :: cs => hkHere (c :: cs) || hkAny cs

/-- Embedding of `RE_THAILAND.search` (case-insensitive, modelled by lower-casing). -/
def reThailand (s : String) : Bool :=
  thaiWords.any (fun w => hasSub (pyLower s) w)

/-- Embedding of `RE_ASIA.search` (case-insensitive, modelled by lower-casing). -/
def reAsia (s : String) : Bool :=
  asiaWords.any (fun w => hasSub (pyLower s) w) || hkAny (pyLower s).toList

/-- The `REPUTABLE` allow-list, already lower-cased as in the source's
set comprehension (lines 83-89). -/
def REPUTABLE : List String :=
  ["harvard", "who", "mayo clinic", "nih", "johns hopkins", "cdc",
   "lancet", "nature", "cleveland clinic", "stanford"]

/-! ## Pure helpers (lines 92-159) -/

/-- Embedding of `dedup_key` (lines 92-95): strip, lower-case, collapse whitespace
runs to one space, drop every char outside `[a-z0-9 ]`, keep 180 chars. -/
def dedup_key (title : String) : String :=
  String.mk
    (((collapseWs (pyLower (pyStrip title)).toList).filter
        (fun c => ('a' ≤ c && c ≤ 'z') || ('0' ≤ c && c ≤ '9') || c = ' ')).take 180)

/-- Embedding of `classify_region` (lines 98-106). -/
def classify_region (text demographic : String) : String :=
  let t := pyLower text
  if pyLower demographic = "local" then "local"
  else if reThailand t then "local"
  else if reAsia t then "regional"
  else "global"

/-! ## Error model

One executor request either yields a validated 2-element parse or fails.
The failure constructors mirror the exception classes that can escape
`_make_request`: `urllib.error.HTTPError` (with status code and the
forensic response body), `urllib.error.URLError`, `TimeoutError`, and
the `RuntimeError` family raised by the response-contract validation
(no data / bad stop_reason / empty text / not a list / wrong count). -/

inductive CallError where
  | httpError (code : Nat) (body : String)
  | urlError (msg : String)
  | timeoutError (msg : String)
  | contractError (msg : String)
deriving DecidableEq, Repr

/-- Embedding of `is_transient_error` (lines 147-159). -/
def is_transient_error : CallError → Bool
  | .httpError code _ => code = 429 || (500 ≤ code && code ≤ 599)
  | .urlError _ => true
  | .timeoutError _ => true
  | .contractError _ => false

/-- Python `str(e)` for the modelled exceptions.  For `HTTPError` the
real text is `HTTP Error {code}: {reason}`; the reason phrase is not
modelled (no claim depends on it, and none of its fixed words occur in
the schema-unsupported phrase list below). -/
def errStr : CallError → String
  | .httpError code _ => "HTTP Error " ++ toString code
  | .urlError m => "<urlopen error " ++ m ++ ">"
  | .timeoutError m => m
  | .contractError m => m

/-- Python `repr(e)` for the modelled exceptions (only reached when
`str(e)` is empty, per line 406). -/
def errRepr : CallError → String
  | .httpError code _ => "HTTPError(" ++ toString code ++ ")"
  | .urlError m => "URLError(\x27" ++ m ++ "\x27)"
  | .timeoutError m => "TimeoutError(\x27" ++ m ++ "\x27)"
  | .contractError m => "RuntimeError(\x27" ++ m ++ "\x27)"

/-- The message stored in an error record (lines 401-406):
`str(last_error)` if truthy, else `repr(last_error)`, and the literal
`"Unknown error"` when no attempt ever ran (`last_error is None`). -/
def pyMsg : Option CallError → String
  | none => "Unknown error"
  | some e => if errStr e = "" then errRepr e else errStr e

/-- The `structured_not_supported` phrase heuristic (lines 303-309),
applied to the already lower-cased haystack. -/
def structNotSupported (h : String) : Bool :=
  (hasSub h "output_config" &&
    (hasSub h "unknown" || hasSub h "not allowed" || hasSub h "unsupported"))
  || hasSub h "does not support output format"
  || (hasSub h "unknown field" && hasSub h "output_config")
  || (hasSub h "json_schema" && (hasSub h "not supported" || hasSub h "unsupported"))
  || (hasSub h "output_config.format" && (hasSub h "not supported" || hasSub h "unsupported"))

/-- The whole re-issue guard of `fetch_single_query` (lines 296-311): a
400-class `HTTPError` whose `str(e) + "\n" + body`, lower-cased, matches
the phrase heuristic. -/
def schemaRejectErr : CallError → Bool
  | .httpError code body =>
    code = 400 && structNotSupported (pyLower (errStr (.httpError code body) ++ "\n" ++ body))
  | _ => false

/-! ## Query Executor (`fetch_single_query`, lines 163-319)

A run's network behaviour is an oracle: request number `i` of the run,
issued with (`true`) or without (`false`) the structured-output schema,
yields either a validated pair of parsed items or a `CallError`.  The
response-contract validation of `_make_request` is folded into the
oracle's outcome (its violations surface as `contractError`). -/

/-- One element of the parsed 2-element JSON array: either not a JSON
object (skipped by the normalizer, line 418) or an object whose string
fields default to the empty string (`... or ""`) and whose `url` is
passed through nullable. -/
inductive RawVal where
  | junk
  | item (title summary source strategic : String) (url : Option String)
deriving DecidableEq, Repr

def Oracle : Type := Nat → Bool → Except CallError (RawVal × RawVal)

/-- Run-scoped executor state: the sticky `STRUCTURED_OUTPUT_DISABLED`
flag (line 36) and the number of HTTP requests actually issued so far. -/
structure FetchState where
  disabled : Bool
  reqCount : Nat
deriving DecidableEq, Repr

/-- Embedding of `fetch_single_query` (lines 292-319): issue the request
(with the schema unless the run-level flag is set); on a 400 matching
the schema-unsupported heuristic, set the sticky flag and re-issue once
without the schema, returning that second outcome verbatim. -/
def fetch_single_query (o : Oracle) (fs : FetchState) :
    Except CallError (RawVal × RawVal) × FetchState :=
  let r1 := o fs.reqCount (!fs.disabled)
  let fs1 : FetchState := ⟨fs.disabled, fs.reqCount + 1⟩
  match r1 with
  | .ok v => (.ok v, fs1)
  | .error e =>
    if schemaRejectErr e then
      (o fs1.reqCount false, ⟨true, fs1.reqCount + 1⟩)
    else
      (.error e, fs1)

/-! ## Data model of the controller (lines 338-346, 350-354) -/

/-- One entry of `queries.json` (fields read at lines 351-354). -/
structure Query where
  query_tag : String
  demographic : String
  badge_color : String
  query_text : String
deriving DecidableEq, Repr

/-- One normalized item as appended at lines 432-443. -/
structure NormItem where
  query_tag : String
  badge_color : String
  region : String
  title : String
  summary : String
  source : String
  url : Option String
  strategic_implication : String
deriving DecidableEq, Repr

/-- One error record as appended at lines 402-409. -/
structure ErrorRecord where
  query_tag : String
  error_type : String
  message : String
  attempts : Nat
deriving DecidableEq, Repr

/-- Working memory of one run of `main` (locals of lines 341-346 plus
the executor's run-scoped state). -/
structure RunState where
  fetch : FetchState
  calls_used : Nat
  calls_attempted : Nat
  consecutive_failures : Nat
  seen_keys : List String
  all_items : List NormItem
  errors : List ErrorRecord
deriving DecidableEq, Repr

/-- Normalization of one parsed element (lines 417-443): skip non-dicts
and empty titles, skip already-seen dedup keys, classify the region from
the stripped title plus raw summary and source, strip stored fields, and
pass `url` through unmodified. -/
def normStep (q : Query) (st : RunState) (c : RawVal) : RunState :=
  match c with
  | .junk => st
  | .item t s src strat url =>
    let title := pyStrip t
    if title = "" then st
    else
      let dk := dedup_key title
      if dk ∈ st.seen_keys then st
      else
        { st with
          seen_keys := st.seen_keys ++ [dk]
          all_items := st.all_items ++
            [{ query_tag := q.query_tag
               badge_color := q.badge_color
               region := classify_region (title ++ " " ++ s ++ " " ++ src) q.demographic
               title := title
               summary := pyStrip s
               source := pyStrip src
               url := url
               strategic_implication := pyStrip strat }] }

/-- Normalization of a successful call's 2-element result list, in
response order. -/
def normalizeResults (q : Query) (v : RawVal × RawVal) (st : RunState) : RunState :=
  normStep q (normStep q st v.1) v.2

/-- Error-record append for a query that produced no results
(lines 400-409). -/
def recordFailure (q : Query) (att : Nat) (msg : String) (st : RunState) : RunState :=
  { st with errors := st.errors ++
      [{ query_tag := q.query_tag, error_type := "other", message := msg, attempts := att }] }

/-- Embedding of the per-query attempt loop (`while attempts_for_this_query < 2`,
lines 360-443), returning the resulting state together with the list of
state snapshots taken right after each attempt's counter bookkeeping
(that is, after lines 385-387 on success or line 391 on failure).  The
two leading guards model the in-loop breaker and budget pre-checks
(lines 366-372); the retry guard models line 394, whose
`attempts_for_this_query < 2` conjunct is always true at that point of
the unrolling.  Sleeps and logging are no-ops for the claims. -/
def runQueryT (o : Oracle) (q : Query) (st0 : RunState) : RunState × List RunState :=
  if CONSECUTIVE_FAIL_LIMIT ≤ st0.consecutive_failures then
    (recordFailure q 0 (pyMsg none) st0, [])
  else if CALL_BUDGET ≤ st0.calls_attempted then
    (recordFailure q 0 (pyMsg none) st0, [])
  else
    let stA := { st0 with calls_attempted := st0.calls_attempted + 1 }
    let fr1 := fetch_single_query o stA.fetch
    let stB := { stA with fetch := fr1.2 }
    match fr1.1 with
    | .ok v =>
      let stS := { stB with calls_used := stB.calls_used + 1, consecutive_failures := 0 }
      (normalizeResults q v stS, [stS])
    | .error e1 =>
      let stF := { stB with consecutive_failures := stB.consecutive_failures + 1 }
      if is_transient_error e1 = true ∧ stF.calls_attempted < CALL_BUDGET then
        if CONSECUTIVE_FAIL_LIMIT ≤ stF.consecutive_failures then
          (recordFailure q 1 (pyMsg (some e1)) stF, [stF])
        else if CALL_BUDGET ≤ stF.calls_attempted then
          (recordFailure q 1 (pyMsg (some e1)) stF, [stF])
        else
          let stC := { stF with calls_attempted := stF.calls_attempted + 1 }
          let fr2 := fetch_single_query o stC.fetch
          let stD := { stC with fetch := fr2.2 }
          match fr2.1 with
          | .ok v =>
            let stS := { stD with calls_used := stD.calls_used + 1, consecutive_failures := 0 }
            (normalizeResults q v stS, [stF, stS])
          | .error e2 =>
            let stG := { stD with consecutive_failures := stD.consecutive_failures + 1 }
            (recordFailure q 2 (pyMsg (some e2)) stG, [stF, stG])
      else
        (recordFailure q 1 (pyMsg (some e1)) stF, [stF])

/-- Embedding of the outer `for q in queries` loop (lines 350-358): the
whole-run circuit-breaker check at the top of each iteration halts the
entire run (`break`, line 358) without touching the current query. -/
def runQueriesT (o : Oracle) : List Query → RunState → RunState × List RunState
  | [], st => (st, [])
  | q :: rest, st =>
    if CONSECUTIVE_FAIL_LIMIT ≤ st.consecutive_failures then (st, [])
    else
      let r1 := runQueryT o q st
      let r2 := runQueriesT o rest r1.1
      (r2.1, r1.2 ++ r2.2)

/-- Initial working memory of a run (lines 341-346; flag of line 36). -/
def initState : RunState := ⟨⟨false, 0⟩, 0, 0, 0, [], [], []⟩

/-- Whole retrieval phase of one run. -/
def runAll (o : Oracle) (qs : List Query) : RunState × List RunState :=
  runQueriesT o qs initState

/-- Every observable intermediate state of a run: the initial state, the
snapshot after each attempt, and the final state. -/
def runTrace (o : Oracle) (qs : List Query) : List RunState :=
  initState :: (runAll o qs).2 ++ [(runAll o qs).1]

/-! ## Report Assembler (lines 109-144, 445-471)

Python's `list.sort(key=...)` is a stable ascending sort; its output is
the unique stably-sorted-by-key rearrangement, embedded here as a stable
insertion sort over an executable lexicographic comparison (core
`String` order does not reduce in the kernel, so the comparison is
defined on `List Char`, which agrees with Python's code-point order for
the ASCII data involved). -/

/-- Lexicographic-by-code-point comparison; Python's `<=` on strings. -/
def listLe : List Char → List Char → Bool
  | [], _ => true
  | _ :: _, [] => false
  | a :: as, b :: bs =>
    if a < b then true else if b < a then false else listLe as bs

/-- Embedding of `reputable_rank` (lines 446-448). -/
def reputable_rank (it : NormItem) : Nat :=
  if pyLower it.source ∈ REPUTABLE then 0 else 1

/-- Sort key of line 450: `(reputable_rank(x), x["title"].lower())`. -/
def itemKey (it : NormItem) : Nat × List Char :=
  (reputable_rank it, (pyLower it.title).toList)

/-- Ascending comparison on sort keys (rank first, then title). -/
def keyLe (a b : Nat × List Char) : Bool :=
  decide (a.1 < b.1) || (decide (a.1 = b.1) && listLe a.2 b.2)

/-- Stable insertion of an element coming earlier in emission order:
it lands before the first element whose key is not smaller. -/
def pyInsert (x : NormItem) : List NormItem → List NormItem
  | [] => [x]
  | y :: ys => if keyLe (itemKey x) (itemKey y) then x :: y :: ys else y :: pyInsert x ys

/-- Embedding of `all_items.sort(key=lambda x: (reputable_rank(x),
x.get("title", "").lower()))` (line 450) as a stable sort. -/
def pySortItems : List NormItem → List NormItem
  | [] => []
  | x :: xs => pyInsert x (pySortItems xs)

/-- Deduplicating truncation helper `uniq` of `build_exec_summary`
(lines 123-132): drop falsy entries and entries whose `dedup_key` was
already seen. -/
def uniqKeyed : List String → List String → List String
  | _, [] => []
  | seen, x :: xs =>
    if dedup_key x ∈ seen || x = "" then uniqKeyed seen xs
    else x :: uniqKeyed (seen ++ [dedup_key x]) xs

/-- Executive summary payload (lines 140-144). -/
structure ExecSummary where
  trends : List String
  strategic : List String
  localNews : List String
deriving DecidableEq, Repr

/-- Embedding of `build_exec_summary` (lines 109-144). -/
def build_exec_summary (items : List NormItem) : ExecSummary :=
  let trends := (uniqKeyed [] (items.filterMap
    (fun it => if it.summary = "" then none else some it.summary))).take 3
  let strategic := (uniqKeyed [] (items.filterMap
    (fun it => if it.strategic_implication = "" then none else some it.strategic_implication))).take 3
  let localT := (items.filter (fun it => it.region = "local")).map NormItem.title
  { trends := if trends = [] then ["ยังไม่มีข้อมูลเทรนด์"] else trends
    strategic := if strategic = [] then ["ยังไม่มีข้อมูลเชิงกลยุทธ์"] else strategic
    localNews := if localT = [] then ["ยังไม่มีข่าวท้องถิ่นในรอบนี้"] else localT }

/-- Report metadata (lines 453-466); the two timestamp strings and the
fixed schedule string are external-time data with no claim content and
are omitted. -/
structure Meta where
  version : String
  calls_used : Nat
  calls_attempted : Nat
  calls_budget : Nat
  isPartial : Bool
  notes : String
deriving DecidableEq, Repr

/-- Assembled output artifact (lines 452-471). -/
structure Report where
  meta : Meta
  executive_summary : ExecSummary
  items : List NormItem
  errors : List ErrorRecord
deriving DecidableEq, Repr

/-- Embedding of the assembly of `out` (lines 450-471): sort the items
in place, then build meta, executive summary (from the sorted list, as
in the source), items and errors. -/
def mkReport (st : RunState) : Report :=
  let sorted := pySortItems st.all_items
  { meta :=
      { version := "1B-v2.1"
        calls_used := st.calls_used
        calls_attempted := st.calls_attempted
        calls_budget := CALL_BUDGET
        isPartial := decide (st.errors ≠ [] ∨ st.calls_used < CALL_BUDGET)
        notes :=
          toString sorted.length ++ " articles from " ++ toString st.calls_used ++
          " successful calls / " ++ toString st.calls_attempted ++ " attempts (budget " ++
          toString CALL_BUDGET ++ "). " ++ toString st.errors.length ++ " errors. " ++
          (if st.errors ≠ [] ∨ st.calls_used < CALL_BUDGET then "PARTIAL: stopped early."
           else "OK.") }
    executive_summary := build_exec_summary sorted
    items := sorted
    errors := st.errors }

/-! ## Process entry (`main`, lines 322-477) -/

/-- Observable outcome of one process run: the exit code, the artifact
written to `data.json` (if any), and the number of provider requests
actually issued. -/
structure MainOutcome where
  exitCode : Nat
  artifact : Option Report
  requestsIssued : Nat
deriving DecidableEq, Repr

/-- Embedding of `main` (lines 322-477).  A missing — or falsy, hence
also empty — `ANTHROPIC_API_KEY` exits with code 1 before anything else
(lines 323-326); a query count different from `CALL_BUDGET` fails the
`assert` (lines 334-336), which terminates the process with the
interpreter's uncaught-exception exit code 1; both happen before any
request is issued and before `data.json` is written.  Otherwise the
retrieval loop runs and the report is always written. -/
def pyMain (apiKey : Option String) (queries : List Query) (o : Oracle) : MainOutcome :=
  match apiKey with
  | none => ⟨1, none, 0⟩
  | some k =>
    if k = "" then ⟨1, none, 0⟩
    else if queries.length = CALL_BUDGET then
      let fin := (runAll o queries).1
      ⟨0, some (mkReport fin), fin.fetch.reqCount⟩
    else ⟨1, none, 0⟩

/-! ## Proof machinery

Small projection facts, a case-analysis principle enumerating the six
possible executions of the per-query attempt loop, and the run-level
invariants built on them. -/

deriving instance DecidableEq for Except

/-- Projections of `normStep` that never change: everything except
`seen_keys` and `all_items`. -/
lemma normStep_sig (q : Query) (st : RunState) (c : RawVal) :
    (normStep q st c).fetch = st.fetch ∧
    (normStep q st c).calls_used = st.calls_used ∧
    (normStep q st c).calls_attempted = st.calls_attempted ∧
    (normStep q st c).consecutive_failures = st.consecutive_failures ∧
    (normStep q st c).errors = st.errors := by
  cases c with
  | junk => exact ⟨rfl, rfl, rfl, rfl, rfl⟩
  | item t s src strat url =>
    unfold normStep
    dsimp only
    split_ifs <;> exact ⟨rfl, rfl, rfl, rfl, rfl⟩

/-- Projections of `normalizeResults` that never change. -/
lemma normalizeResults_sig (q : Query) (v : RawVal × RawVal) (st : RunState) :
    (normalizeResults q v st).fetch = st.fetch ∧
    (normalizeResults q v st).calls_used = st.calls_used ∧
    (normalizeResults q v st).calls_attempted = st.calls_attempted ∧
    (normalizeResults q v st).consecutive_failures = st.consecutive_failures ∧
    (normalizeResults q v st).errors = st.errors := by
  obtain ⟨a1, a2, a3, a4, a5⟩ := normStep_sig q st v.1
  obtain ⟨b1, b2, b3, b4, b5⟩ := normStep_sig q (normStep q st v.1) v.2
  exact ⟨b1.trans a1, b2.trans a2, b3.trans a3, b4.trans a4, b5.trans a5⟩

lemma runQueryT_cases (o : Oracle) (q : Query) (st0 : RunState)
    (P : RunState × List RunState → Prop)
    (hstop : CONSECUTIVE_FAIL_LIMIT ≤ st0.consecutive_failures ∨ CALL_BUDGET ≤ st0.calls_attempted →
      P (recordFailure q 0 (pyMsg none) st0, []))
    (hok1 : ∀ v fs, st0.consecutive_failures < CONSECUTIVE_FAIL_LIMIT →
      st0.calls_attempted < CALL_BUDGET →
      fetch_single_query o st0.fetch = (Except.ok v, fs) →
      P (normalizeResults q v
          ⟨fs, st0.calls_used + 1, st0.calls_attempted + 1, 0, st0.seen_keys, st0.all_items, st0.errors⟩,
        [⟨fs, st0.calls_used + 1, st0.calls_attempted + 1, 0, st0.seen_keys, st0.all_items, st0.errors⟩]))
    (hfail1 : ∀ e1 fs, st0.consecutive_failures < CONSECUTIVE_FAIL_LIMIT →
      st0.calls_attempted < CALL_BUDGET →
      fetch_single_query o st0.fetch = (Except.error e1, fs) →
      (¬ (is_transient_error e1 = true ∧ st0.calls_attempted + 1 < CALL_BUDGET) ∨
        CONSECUTIVE_FAIL_LIMIT ≤ st0.consecutive_failures + 1) →
      P (recordFailure q 1 (pyMsg (some e1))
          ⟨fs, st0.calls_used, st0.calls_attempted + 1, st0.consecutive_failures + 1,
            st0.seen_keys, st0.all_items, st0.errors⟩,
        [⟨fs, st0.calls_used, st0.calls_attempted + 1, st0.consecutive_failures + 1,
            st0.seen_keys, st0.all_items, st0.errors⟩]))
    (hok2 : ∀ e1 fs v fs2, st0.consecutive_failures < CONSECUTIVE_FAIL_LIMIT →
      st0.calls_attempted < CALL_BUDGET →
      fetch_single_query o st0.fetch = (Except.error e1, fs) →
      is_transient_error e1 = true → st0.calls_attempted + 1 < CALL_BUDGET →
      st0.consecutive_failures + 1 < CONSECUTIVE_FAIL_LIMIT →
      fetch_single_query o fs = (Except.ok v, fs2) →
      P (normalizeResults q v
          ⟨fs2, st0.calls_used + 1, st0.calls_attempted + 2, 0, st0.seen_keys, st0.all_items, st0.errors⟩,
        [⟨fs, st0.calls_used, st0.calls_attempted + 1, st0.consecutive_failures + 1,
            st0.seen_keys, st0.all_items, st0.errors⟩,
         ⟨fs2, st0.calls_used + 1, st0.calls_attempted + 2, 0, st0.seen_keys, st0.all_items, st0.errors⟩]))
    (hfail2 : ∀ e1 fs e2 fs2, st0.consecutive_failures < CONSECUTIVE_FAIL_LIMIT →
      st0.calls_attempted < CALL_BUDGET →
      fetch_single_query o st0.fetch = (Except.error e1, fs) →
      is_transient_error e1 = true → st0.calls_attempted + 1 < CALL_BUDGET →
      st0.consecutive_failures + 1 < CONSECUTIVE_FAIL_LIMIT →
      fetch_single_query o fs = (Except.error e2, fs2) →
      P (recordFailure q 2 (pyMsg (some e2))
          ⟨fs2, st0.calls_used, st0.calls_attempted + 2, st0.consecutive_failures + 2,
            st0.seen_keys, st0.all_items, st0.errors⟩,
        [⟨fs, st0.calls_used, st0.calls_attempted + 1, st0.consecutive_failures + 1,
            st0.seen_keys, st0.all_items, st0.errors⟩,
         ⟨fs2, st0.calls_used, st0.calls_attempted + 2, st0.consecutive_failures + 2,
            st0.seen_keys, st0.all_items, st0.errors⟩])) :
    P (runQueryT o q st0) := by
  unfold runQueryT
  by_cases h5 : CONSECUTIVE_FAIL_LIMIT ≤ st0.consecutive_failures
  · rw [if_pos h5]; exact hstop (Or.inl h5)
  · rw [if_neg h5]
    by_cases hB : CALL_BUDGET ≤ st0.calls_attempted
    · rw [if_pos hB]; exact hstop (Or.inr hB)
    · rw [if_neg hB]
      dsimp only
      rcases h1 : fetch_single_query o st0.fetch with ⟨r1, fs1⟩
      cases r1 with
      | ok v =>
        try dsimp only
        exact hok1 v fs1 (Nat.lt_of_not_le h5) (Nat.lt_of_not_le hB) h1
      | error e1 =>
        try dsimp only
        by_cases hr : is_transient_error e1 = true ∧ st0.calls_attempted + 1 < CALL_BUDGET
        · rw [if_pos hr]
          by_cases h52 : CONSECUTIVE_FAIL_LIMIT ≤ st0.consecutive_failures + 1
          · rw [if_pos h52]
            exact hfail1 e1 fs1 (Nat.lt_of_not_le h5) (Nat.lt_of_not_le hB) h1 (Or.inr h52)
          · rw [if_neg h52, if_neg (Nat.not_le.mpr hr.2)]
            try dsimp only
            rcases h2 : fetch_single_query o fs1 with ⟨r2, fs2⟩
            cases r2 with
            | ok v =>
              try dsimp only
              exact hok2 e1 fs1 v fs2 (Nat.lt_of_not_le h5) (Nat.lt_of_not_le hB) h1 hr.1 hr.2
                (Nat.lt_of_not_le h52) h2
            | error e2 =>
              try dsimp only
              exact hfail2 e1 fs1 e2 fs2 (Nat.lt_of_not_le h5) (Nat.lt_of_not_le hB) h1 hr.1 hr.2
                (Nat.lt_of_not_le h52) h2
        · rw [if_neg hr]
          exact hfail1 e1 fs1 (Nat.lt_of_not_le h5) (Nat.lt_of_not_le hB) h1 (Or.inl hr)

/-- The counter invariant of a run: failures and successes both consume
budget, so `calls_used + consecutive_failures ≤ calls_attempted`, and
the pre-attempt budget check keeps `calls_attempted` within budget. -/
def StInv (σ : RunState) : Prop :=
  σ.calls_used + σ.consecutive_failures ≤ σ.calls_attempted ∧
  σ.calls_attempted ≤ CALL_BUDGET

lemma stInv_init : StInv initState := by
  constructor <;> simp [initState, CALL_BUDGET]

lemma runQueryT_StInv (o : Oracle) (q : Query) (st0 : RunState) (h : StInv st0) :
    StInv (runQueryT o q st0).1 ∧ ∀ σ ∈ (runQueryT o q st0).2, StInv σ := by
  obtain ⟨h1, h2⟩ := h
  refine runQueryT_cases o q st0
    (fun r => StInv r.1 ∧ ∀ σ ∈ r.2, StInv σ) ?_ ?_ ?_ ?_ ?_
  · intro _
    exact ⟨⟨h1, h2⟩, by simp⟩
  · intro v fs h5 hB hf
    obtain ⟨c1, c2, c3, c4, c5⟩ := normalizeResults_sig q v
      ⟨fs, st0.calls_used + 1, st0.calls_attempted + 1, 0, st0.seen_keys, st0.all_items, st0.errors⟩
    refine ⟨⟨?_, ?_⟩, ?_⟩
    · rw [c2, c3, c4]; dsimp only; omega
    · rw [c3]; dsimp only; omega
    · intro σ hσ
      rw [List.mem_singleton] at hσ; subst hσ
      exact ⟨by dsimp only [StInv]; omega, by dsimp only [StInv]; omega⟩
  · intro e1 fs h5 hB hf _
    refine ⟨⟨?_, ?_⟩, ?_⟩
    · show st0.calls_used + (st0.consecutive_failures + 1) ≤ st0.calls_attempted + 1; omega
    · show st0.calls_attempted + 1 ≤ CALL_BUDGET; omega
    · intro σ hσ
      rw [List.mem_singleton] at hσ; subst hσ
      exact ⟨by dsimp only [StInv]; omega, by dsimp only [StInv]; omega⟩
  · intro e1 fs v fs2 h5 hB hf htr hB2 h52 hf2
    obtain ⟨c1, c2, c3, c4, c5⟩ := normalizeResults_sig q v
      ⟨fs2, st0.calls_used + 1, st0.calls_attempted + 2, 0, st0.seen_keys, st0.all_items, st0.errors⟩
    refine ⟨⟨?_, ?_⟩, ?_⟩
    · rw [c2, c3, c4]; dsimp only; omega
    · rw [c3]; dsimp only; omega
    · intro σ hσ
      rw [List.mem_cons, List.mem_singleton] at hσ
      rcases hσ with rfl | rfl
      · exact ⟨by dsimp only [StInv]; omega, by dsimp only [StInv]; omega⟩
      · exact ⟨by dsimp only [StInv]; omega, by dsimp only [StInv]; omega⟩
  · intro e1 fs e2 fs2 h5 hB hf htr hB2 h52 hf2
    refine ⟨⟨?_, ?_⟩, ?_⟩
    · show st0.calls_used + (st0.consecutive_failures + 2) ≤ st0.calls_attempted + 2; omega
    · show st0.calls_attempted + 2 ≤ CALL_BUDGET; omega
    · intro σ hσ
      rw [List.mem_cons, List.mem_singleton] at hσ
      rcases hσ with rfl | rfl
      · exact ⟨by dsimp only [StInv]; omega, by dsimp only [StInv]; omega⟩
      · exact ⟨by dsimp only [StInv]; omega, by dsimp only [StInv]; omega⟩

lemma runQueriesT_stop (o : Oracle) (qs : List Query) (st : RunState)
    (h : CONSECUTIVE_FAIL_LIMIT ≤ st.consecutive_failures) :
    runQueriesT o qs st = (st, []) := by
  cases qs with
  | nil => rfl
  | cons q rest => simp [runQueriesT, if_pos h]

lemma runQueriesT_StInv (o : Oracle) (qs : List Query) :
    ∀ st, StInv st →
      StInv (runQueriesT o qs st).1 ∧ ∀ σ ∈ (runQueriesT o qs st).2, StInv σ := by
  induction qs with
  | nil => intro st h; exact ⟨h, by simp [runQueriesT]⟩
  | cons q rest ih =>
    intro st h
    by_cases h5 : CONSECUTIVE_FAIL_LIMIT ≤ st.consecutive_failures
    · rw [runQueriesT_stop o _ st h5]
      exact ⟨h, by simp⟩
    · simp only [runQueriesT, if_neg h5]
      obtain ⟨ha, hb⟩ := runQueryT_StInv o q st h
      obtain ⟨hc, hd⟩ := ih _ ha
      refine ⟨hc, ?_⟩
      intro σ hσ
      rw [List.mem_append] at hσ
      rcases hσ with h' | h'
      · exact hb σ h'
      · exact hd σ h'

lemma runTrace_StInv (o : Oracle) (qs : List Query) :
    ∀ σ ∈ runTrace o qs, StInv σ := by
  intro σ hσ
  simp only [runTrace, List.mem_cons, List.mem_append, List.mem_singleton] at hσ
  obtain ⟨hf, hs⟩ := runQueriesT_StInv o qs initState stInv_init
  rcases hσ with (rfl | h) | (rfl | h)
  · exact stInv_init
  · exact hs σ h
  · exact hf
  · exact (List.not_mem_nil σ h).elim

/-- Every attempt inside a query is guarded by the breaker pre-check, so
once a snapshot shows `consecutive_failures` at the limit, the query
makes no further attempts: the state returned for the query has the same
`calls_attempted` and the same `consecutive_failures`. -/
lemma runQueryT_freeze (o : Oracle) (q : Query) (st0 : RunState)
    (_h : st0.consecutive_failures < CONSECUTIVE_FAIL_LIMIT) :
    ∀ σ ∈ (runQueryT o q st0).2, CONSECUTIVE_FAIL_LIMIT ≤ σ.consecutive_failures →
      (runQueryT o q st0).1.calls_attempted = σ.calls_attempted ∧
      (runQueryT o q st0).1.consecutive_failures = σ.consecutive_failures := by
  refine runQueryT_cases o q st0
    (fun r => ∀ σ ∈ r.2, CONSECUTIVE_FAIL_LIMIT ≤ σ.consecutive_failures →
      r.1.calls_attempted = σ.calls_attempted ∧
      r.1.consecutive_failures = σ.consecutive_failures) ?_ ?_ ?_ ?_ ?_
  · intro _ σ hσ _
    exact (List.not_mem_nil σ hσ).elim
  · intro v fs h5 hB hf σ hσ h5'
    rw [List.mem_singleton] at hσ; subst hσ
    exact absurd h5' (by simp [CONSECUTIVE_FAIL_LIMIT])
  · intro e1 fs h5 hB hf _ σ hσ h5'
    rw [List.mem_singleton] at hσ; subst hσ
    exact ⟨rfl, rfl⟩
  · intro e1 fs v fs2 h5 hB hf htr hB2 h52 hf2 σ hσ h5'
    rw [List.mem_cons, List.mem_singleton] at hσ
    rcases hσ with rfl | rfl
    · exact absurd h5' (by dsimp only; omega)
    · exact absurd h5' (by simp [CONSECUTIVE_FAIL_LIMIT])
  · intro e1 fs e2 fs2 h5 hB hf htr hB2 h52 hf2 σ hσ h5'
    rw [List.mem_cons, List.mem_singleton] at hσ
    rcases hσ with rfl | rfl
    · exact absurd h5' (by dsimp only; omega)
    · exact ⟨rfl, rfl⟩

/-- Whole-run version of the freeze property: after any snapshot with
`consecutive_failures` at the limit, no further attempt happens in the
rest of the run, so the final state keeps that snapshot's
`calls_attempted` and `consecutive_failures`. -/
lemma runQueriesT_freeze (o : Oracle) (qs : List Query) :
    ∀ st, st.consecutive_failures < CONSECUTIVE_FAIL_LIMIT →
      ∀ σ ∈ (runQueriesT o qs st).2, CONSECUTIVE_FAIL_LIMIT ≤ σ.consecutive_failures →
        (runQueriesT o qs st).1.calls_attempted = σ.calls_attempted ∧
        (runQueriesT o qs st).1.consecutive_failures = σ.consecutive_failures := by
  induction qs with
  | nil => intro st h σ hσ _; simp [runQueriesT] at hσ
  | cons q rest ih =>
    intro st h σ hσ h5
    have hne : ¬ CONSECUTIVE_FAIL_LIMIT ≤ st.consecutive_failures := Nat.not_le.mpr h
    simp only [runQueriesT, if_neg hne] at hσ ⊢
    rw [List.mem_append] at hσ
    rcases hσ with h' | h'
    · by_cases hc : CONSECUTIVE_FAIL_LIMIT ≤ (runQueryT o q st).1.consecutive_failures
      · rw [runQueriesT_stop o rest _ hc]
        exact runQueryT_freeze o q st h σ h' h5
      · have hfz := runQueryT_freeze o q st h σ h' h5
        exact absurd (by rw [hfz.2]; exact h5) hc
    · by_cases hc : CONSECUTIVE_FAIL_LIMIT ≤ (runQueryT o q st).1.consecutive_failures
      · rw [runQueriesT_stop o rest _ hc] at h'
        exact (List.not_mem_nil σ h').elim
      · exact ih _ (Nat.lt_of_not_le hc) σ h' h5

/-- Outcome-level view of the schema-unsupported re-issue guard. -/
def outcomeSchemaReject : Except CallError (RawVal × RawVal) → Bool
  | .error e => schemaRejectErr e
  | .ok _ => false

/-- A provider that reports the schema-unsupported rejection only for
requests that actually carried the schema constraint (an unconstrained
request contains no `output_config` field for the provider to reject). -/
def SchemaFaithful (o : Oracle) : Prop :=
  ∀ i, outcomeSchemaReject (o i false) = false

/-- Request accounting of one `fetch_single_query` call against a
schema-faithful provider: either exactly one request is issued and the
sticky flag is unchanged, or the flag was still off, exactly two
requests are issued, and the flag turns on. -/
lemma fetch_spec (o : Oracle) (fs : FetchState) (H : SchemaFaithful o) :
    ((fetch_single_query o fs).2.disabled = fs.disabled ∧
      (fetch_single_query o fs).2.reqCount = fs.reqCount + 1) ∨
    (fs.disabled = false ∧ (fetch_single_query o fs).2.disabled = true ∧
      (fetch_single_query o fs).2.reqCount = fs.reqCount + 2) := by
  obtain ⟨d, n⟩ := fs
  cases d with
  | true =>
    unfold fetch_single_query
    dsimp only
    simp only [Bool.not_true]
    cases h1 : o n false with
    | ok v => exact Or.inl ⟨rfl, rfl⟩
    | error e =>
      dsimp only
      have hH := H n
      rw [h1] at hH
      simp only [outcomeSchemaReject] at hH
      rw [if_neg (by simp [hH])]
      exact Or.inl ⟨rfl, rfl⟩
  | false =>
    unfold fetch_single_query
    dsimp only
    simp only [Bool.not_false]
    cases h1 : o n true with
    | ok v => exact Or.inl ⟨rfl, rfl⟩
    | error e =>
      dsimp only
      by_cases hs : schemaRejectErr e = true
      · rw [if_pos hs]
        exact Or.inr ⟨trivial, rfl, rfl⟩
      · rw [if_neg hs]
        exact Or.inl ⟨rfl, rfl⟩

/-- Request-count invariant: the number of issued requests exceeds the
number of counted attempts by at most one, and only once the sticky
downgrade flag has been consumed. -/
def ReqInv (σ : RunState) : Prop :=
  σ.fetch.reqCount ≤ σ.calls_attempted + (if σ.fetch.disabled then 1 else 0)

lemma reqInv_init : ReqInv initState := by
  simp [ReqInv, initState]

lemma reqInv_step (fs fs' : FetchState) (att : Nat)
    (h : fs.reqCount ≤ att + (if fs.disabled then 1 else 0))
    (hstep : (fs'.disabled = fs.disabled ∧ fs'.reqCount = fs.reqCount + 1) ∨
      (fs.disabled = false ∧ fs'.disabled = true ∧ fs'.reqCount = fs.reqCount + 2)) :
    fs'.reqCount ≤ (att + 1) + (if fs'.disabled then 1 else 0) := by
  rcases hstep with ⟨hd, hr⟩ | ⟨hd0, hd1, hr⟩
  · rw [hr, hd]; omega
  · rw [hr, hd1]
    rw [hd0] at h
    simp only [Bool.false_eq_true, if_false, if_true] at h ⊢
    omega

lemma runQueryT_ReqInv (o : Oracle) (q : Query) (st0 : RunState)
    (H : SchemaFaithful o) (h : ReqInv st0) :
    ReqInv (runQueryT o q st0).1 := by
  refine runQueryT_cases o q st0 (fun r => ReqInv r.1) ?_ ?_ ?_ ?_ ?_
  · intro _; exact h
  · intro v fs h5 hB hf
    obtain ⟨c1, c2, c3, c4, c5⟩ := normalizeResults_sig q v
      ⟨fs, st0.calls_used + 1, st0.calls_attempted + 1, 0, st0.seen_keys, st0.all_items, st0.errors⟩
    show ReqInv _
    unfold ReqInv
    rw [c1, c3]
    dsimp only
    have hstep := fetch_spec o st0.fetch H
    rw [hf] at hstep
    exact reqInv_step st0.fetch fs st0.calls_attempted h hstep
  · intro e1 fs h5 hB hf _
    show fs.reqCount ≤ (st0.calls_attempted + 1) + (if fs.disabled then 1 else 0)
    have hstep := fetch_spec o st0.fetch H
    rw [hf] at hstep
    exact reqInv_step st0.fetch fs st0.calls_attempted h hstep
  · intro e1 fs v fs2 h5 hB hf htr hB2 h52 hf2
    obtain ⟨c1, c2, c3, c4, c5⟩ := normalizeResults_sig q v
      ⟨fs2, st0.calls_used + 1, st0.calls_attempted + 2, 0, st0.seen_keys, st0.all_items, st0.errors⟩
    show ReqInv _
    unfold ReqInv
    rw [c1, c3]
    dsimp only
    have hstep1 := fetch_spec o st0.fetch H
    rw [hf] at hstep1
    have hstep2 := fetch_spec o fs H
    rw [hf2] at hstep2
    have hmid := reqInv_step st0.fetch fs st0.calls_attempted h hstep1
    have := reqInv_step fs fs2 (st0.calls_attempted + 1) hmid hstep2
    omega
  · intro e1 fs e2 fs2 h5 hB hf htr hB2 h52 hf2
    show fs2.reqCount ≤ (st0.calls_attempted + 2) + (if fs2.disabled then 1 else 0)
    have hstep1 := fetch_spec o st0.fetch H
    rw [hf] at hstep1
    have hstep2 := fetch_spec o fs H
    rw [hf2] at hstep2
    have hmid := reqInv_step st0.fetch fs st0.calls_attempted h hstep1
    have := reqInv_step fs fs2 (st0.calls_attempted + 1) hmid hstep2
    omega

lemma runQueriesT_ReqInv (o : Oracle) (qs : List Query) (H : SchemaFaithful o) :
    ∀ st, ReqInv st → ReqInv (runQueriesT o qs st).1 := by
  induction qs with
  | nil => intro st h; exact h
  | cons q rest ih =>
    intro st h
    by_cases h5 : CONSECUTIVE_FAIL_LIMIT ≤ st.consecutive_failures
    · rw [runQueriesT_stop o _ st h5]; exact h
    · simp only [runQueriesT, if_neg h5]
      exact ih _ (runQueryT_ReqInv o q st H h)

/-! ## Order facts for the stable sort -/

lemma listLe_refl (l : List Char) : listLe l l = true := by
  induction l with
  | nil => rfl
  | cons a as ih =>
    simp only [listLe, lt_irrefl, if_false]
    exact ih

lemma listLe_total (a b : List Char) : listLe a b = true ∨ listLe b a = true := by
  induction a generalizing b with
  | nil => exact Or.inl rfl
  | cons x xs ih =>
    cases b with
    | nil => exact Or.inr rfl
    | cons y ys =>
      rcases lt_trichotomy x y with hlt | heq | hgt
      · left
        simp only [listLe, if_pos hlt]
      · subst heq
        simp only [listLe, lt_irrefl, if_false]
        exact ih ys
      · right
        simp only [listLe, if_pos hgt]

lemma listLe_trans {a b c : List Char} (h1 : listLe a b = true) (h2 : listLe b c = true) :
    listLe a c = true := by
  induction a generalizing b c with
  | nil => rfl
  | cons x xs ih =>
    cases b with
    | nil => simp [listLe] at h1
    | cons y ys =>
      cases c with
      | nil => simp [listLe] at h2
      | cons z zs =>
        simp only [listLe] at h1 h2 ⊢
        by_cases hxy : x < y
        · by_cases hyz : y < z
          · rw [if_pos (lt_trans hxy hyz)]
          · by_cases hzy : z < y
            · rw [if_neg hyz, if_pos hzy] at h2
              simp at h2
            · have hyzE : y = z := le_antisymm (not_lt.mp hzy) (not_lt.mp hyz)
              subst hyzE
              rw [if_pos hxy]
        · by_cases hyx : y < x
          · rw [if_neg hxy, if_pos hyx] at h1
            simp at h1
          · have hxyE : x = y := le_antisymm (not_lt.mp hyx) (not_lt.mp hxy)
            subst hxyE
            rw [if_neg (lt_irrefl x)] at h1
            rw [if_neg (lt_irrefl x)] at h1
            by_cases hxz : x < z
            · rw [if_pos hxz]
            · by_cases hzx : z < x
              · rw [if_neg hxz, if_pos hzx] at h2
                simp at h2
              · have hxzE : x = z := le_antisymm (not_lt.mp hzx) (not_lt.mp hxz)
                subst hxzE
                rw [if_neg (lt_irrefl x)] at h2
                rw [if_neg (lt_irrefl x)] at h2
                rw [if_neg (lt_irrefl x)]
                rw [if_neg (lt_irrefl x)]
                exact ih h1 h2

lemma keyLe_refl (k : Nat × List Char) : keyLe k k = true := by
  obtain ⟨r, t⟩ := k
  simp [keyLe, listLe_refl]

lemma keyLe_total (a b : Nat × List Char) : keyLe a b = true ∨ keyLe b a = true := by
  obtain ⟨r1, t1⟩ := a
  obtain ⟨r2, t2⟩ := b
  rcases Nat.lt_trichotomy r1 r2 with h | h | h
  · left; simp [keyLe, h]
  · subst h
    rcases listLe_total t1 t2 with h' | h'
    · left; simp [keyLe, h']
    · right; simp [keyLe, h']
  · right; simp [keyLe, h]

lemma keyLe_trans {a b c : Nat × List Char} (h1 : keyLe a b = true) (h2 : keyLe b c = true) :
    keyLe a c = true := by
  obtain ⟨r1, t1⟩ := a
  obtain ⟨r2, t2⟩ := b
  obtain ⟨r3, t3⟩ := c
  simp only [keyLe, Bool.or_eq_true, Bool.and_eq_true, decide_eq_true_eq] at h1 h2 ⊢
  rcases h1 with h1 | ⟨h1e, h1l⟩
  · rcases h2 with h2 | ⟨h2e, h2l⟩
    · exact Or.inl (lt_trans h1 h2)
    · exact Or.inl (h2e ▸ h1)
  · rcases h2 with h2 | ⟨h2e, h2l⟩
    · exact Or.inl (h1e ▸ h2)
    · exact Or.inr ⟨h1e.trans h2e, listLe_trans h1l h2l⟩

lemma mem_pyInsert (x a : NormItem) (l : List NormItem) :
    a ∈ pyInsert x l ↔ a = x ∨ a ∈ l := by
  induction l with
  | nil => simp [pyInsert]
  | cons y ys ih =>
    simp only [pyInsert]
    split_ifs
    · simp [List.mem_cons]
    · simp only [List.mem_cons, ih]
      tauto

lemma pyInsert_perm (x : NormItem) (l : List NormItem) :
    (pyInsert x l).Perm (x :: l) := by
  induction l with
  | nil => simp [pyInsert]
  | cons y ys ih =>
    simp only [pyInsert]
    split_ifs
    · exact List.Perm.refl _
    · exact (List.Perm.cons y ih).trans (List.Perm.swap x y ys)

lemma pySortItems_perm (l : List NormItem) : (pySortItems l).Perm l := by
  induction l with
  | nil => exact List.Perm.refl _
  | cons x xs ih =>
    exact (pyInsert_perm x (pySortItems xs)).trans (List.Perm.cons x ih)

lemma pyInsert_pairwise (x : NormItem) (l : List NormItem)
    (h : l.Pairwise (fun a b => keyLe (itemKey a) (itemKey b) = true)) :
    (pyInsert x l).Pairwise (fun a b => keyLe (itemKey a) (itemKey b) = true) := by
  induction l with
  | nil => simp [pyInsert]
  | cons y ys ih =>
    rw [List.pairwise_cons] at h
    obtain ⟨hy, hys⟩ := h
    simp only [pyInsert]
    split_ifs with hle
    · rw [List.pairwise_cons]
      refine ⟨?_, List.pairwise_cons.mpr ⟨hy, hys⟩⟩
      intro b hb
      rcases List.mem_cons.mp hb with rfl | hb'
      · exact hle
      · exact keyLe_trans hle (hy b hb')
    · rw [List.pairwise_cons]
      constructor
      · intro b hb
        rcases (mem_pyInsert x b ys).mp hb with hbx | hb'
        · rw [hbx]
          rcases keyLe_total (itemKey x) (itemKey y) with h' | h'
          · exact absurd h' hle
          · exact h'
        · exact hy b hb'
      · exact ih hys

lemma pySortItems_pairwise (l : List NormItem) :
    (pySortItems l).Pairwise (fun a b => keyLe (itemKey a) (itemKey b) = true) := by
  induction l with
  | nil => simp [pySortItems]
  | cons x xs ih =>
    exact pyInsert_pairwise x (pySortItems xs) ih

lemma filter_pyInsert (x : NormItem) (l : List NormItem) (k : Nat × List Char) :
    (pyInsert x l).filter (fun it => decide (itemKey it = k)) =
      if itemKey x = k then x :: l.filter (fun it => decide (itemKey it = k))
      else l.filter (fun it => decide (itemKey it = k)) := by
  induction l with
  | nil =>
    by_cases h : itemKey x = k
    · simp [pyInsert, List.filter, h]
    · simp [pyInsert, List.filter, h]
  | cons y ys ih =>
    simp only [pyInsert]
    by_cases hle : keyLe (itemKey x) (itemKey y) = true
    · rw [if_pos hle]
      by_cases hxk : itemKey x = k
      · rw [if_pos hxk, List.filter_cons_of_pos (by simp [hxk])]
      · rw [if_neg hxk, List.filter_cons_of_neg (by simp [hxk])]
    · rw [if_neg hle]
      by_cases hyk : itemKey y = k
      · by_cases hxk : itemKey x = k
        · exfalso
          apply hle
          have hxy : itemKey x = itemKey y := hxk.trans hyk.symm
          rw [hxy]
          exact keyLe_refl _
        · rw [List.filter_cons_of_pos (by simp [hyk]), ih, if_neg hxk, if_neg hxk,
            List.filter_cons_of_pos (by simp [hyk])]
      · rw [List.filter_cons_of_neg (by simp [hyk]), ih]
        by_cases hxk : itemKey x = k
        · rw [if_pos hxk, if_pos hxk, List.filter_cons_of_neg (by simp [hyk])]
        · rw [if_neg hxk, if_neg hxk, List.filter_cons_of_neg (by simp [hyk])]

lemma filter_pySortItems (l : List NormItem) (k : Nat × List Char) :
    (pySortItems l).filter (fun it => decide (itemKey it = k)) =
      l.filter (fun it => decide (itemKey it = k)) := by
  induction l with
  | nil => rfl
  | cons x xs ih =>
    simp only [pySortItems, filter_pyInsert, List.filter_cons, ih]
    split_ifs with h1 h2 h2 <;> simp_all

/-! ## Deduplication invariant -/

/-- Dedup key of an already-normalized item. -/
def itemDK (it : NormItem) : String := dedup_key it.title

/-- The seen-key set is exactly the multiset of keys of the emitted
items (in emission order), and emitted keys are pairwise distinct. -/
def KeysInv (σ : RunState) : Prop :=
  σ.seen_keys = σ.all_items.map itemDK ∧
  σ.all_items.Pairwise (fun a b => itemDK a ≠ itemDK b)

lemma keysInv_init : KeysInv initState := ⟨rfl, List.Pairwise.nil⟩

lemma normStep_KeysInv (q : Query) (st : RunState) (c : RawVal) (h : KeysInv st) :
    KeysInv (normStep q st c) := by
  cases c with
  | junk => exact h
  | item t s src strat url =>
    unfold normStep
    dsimp only
    split_ifs with h1 h2
    · exact h
    · exact h
    · obtain ⟨hmap, hpw⟩ := h
      constructor
      · show st.seen_keys ++ [dedup_key (pyStrip t)] = _
        rw [List.map_append, hmap]
        rfl
      · show List.Pairwise _ (st.all_items ++ [_])
        rw [List.pairwise_append]
        refine ⟨hpw, by simp, ?_⟩
        intro a ha b hb
        rw [List.mem_singleton] at hb
        subst hb
        intro hEq
        apply h2
        rw [hmap]
        have : itemDK a = dedup_key (pyStrip t) := hEq
        rw [← this]
        exact List.mem_map_of_mem itemDK ha

lemma runQueryT_KeysInv (o : Oracle) (q : Query) (st0 : RunState) (h : KeysInv st0) :
    KeysInv (runQueryT o q st0).1 ∧ ∀ σ ∈ (runQueryT o q st0).2, KeysInv σ := by
  refine runQueryT_cases o q st0
    (fun r => KeysInv r.1 ∧ ∀ σ ∈ r.2, KeysInv σ) ?_ ?_ ?_ ?_ ?_
  · intro _
    exact ⟨h, by simp⟩
  · intro v fs h5 hB hf
    refine ⟨normStep_KeysInv _ _ _ (normStep_KeysInv _ _ _ h), ?_⟩
    intro σ hσ
    rw [List.mem_singleton] at hσ; subst hσ
    exact h
  · intro e1 fs h5 hB hf _
    refine ⟨h, ?_⟩
    intro σ hσ
    rw [List.mem_singleton] at hσ; subst hσ
    exact h
  · intro e1 fs v fs2 h5 hB hf htr hB2 h52 hf2
    refine ⟨normStep_KeysInv _ _ _ (normStep_KeysInv _ _ _ h), ?_⟩
    intro σ hσ
    rw [List.mem_cons, List.mem_singleton] at hσ
    rcases hσ with rfl | rfl
    · exact h
    · exact h
  · intro e1 fs e2 fs2 h5 hB hf htr hB2 h52 hf2
    refine ⟨h, ?_⟩
    intro σ hσ
    rw [List.mem_cons, List.mem_singleton] at hσ
    rcases hσ with rfl | rfl
    · exact h
    · exact h

lemma runQueriesT_KeysInv (o : Oracle) (qs : List Query) :
    ∀ st, KeysInv st →
      KeysInv (runQueriesT o qs st).1 ∧ ∀ σ ∈ (runQueriesT o qs st).2, KeysInv σ := by
  induction qs with
  | nil => intro st h; exact ⟨h, by simp [runQueriesT]⟩
  | cons q rest ih =>
    intro st h
    by_cases h5 : CONSECUTIVE_FAIL_LIMIT ≤ st.consecutive_failures
    · rw [runQueriesT_stop o _ st h5]
      exact ⟨h, by simp⟩
    · simp only [runQueriesT, if_neg h5]
      obtain ⟨ha, hb⟩ := runQueryT_KeysInv o q st h
      obtain ⟨hc, hd⟩ := ih _ ha
      refine ⟨hc, ?_⟩
      intro σ hσ
      rw [List.mem_append] at hσ
      rcases hσ with h' | h'
      · exact hb σ h'
      · exact hd σ h'

lemma runTrace_KeysInv (o : Oracle) (qs : List Query) :
    ∀ σ ∈ runTrace o qs, KeysInv σ := by
  intro σ hσ
  simp only [runTrace, List.mem_cons, List.mem_append, List.mem_singleton] at hσ
  obtain ⟨hf, hs⟩ := runQueriesT_KeysInv o qs initState keysInv_init
  rcases hσ with (rfl | h) | (rfl | h)
  · exact keysInv_init
  · exact hs σ h
  · exact hf
  · exact (List.not_mem_nil σ h).elim

/-! ## Concrete fixtures used by witnesses and counterexamples -/

/-- A generic query descriptor. -/
def wQuery : Query := ⟨"t1", "youth", "blue", "health news"⟩

/-- A query source of exactly `CALL_BUDGET` descriptors. -/
def wQueries : List Query := List.replicate CALL_BUDGET wQuery

/-- A provider for which every request times out (a transient failure). -/
def wOracleFail : Oracle := fun _ _ => Except.error (.timeoutError "timed out")

/-! ## Claims -/

/-- Claim C2: for every run, `calls_attempted` never exceeds the budget
constant 20 at any observable point of the run — under any provider
behaviour, including one where every attempt fails transiently — because
the budget check runs before each attempt. -/
theorem claim_C2 (o : Oracle) (qs : List Query) :
    ∀ σ ∈ runTrace o qs, σ.calls_attempted ≤ CALL_BUDGET :=
  fun σ hσ => (runTrace_StInv o qs σ hσ).2

theorem claim_C2_witness : initState.calls_attempted ≤ CALL_BUDGET :=
  claim_C2 wOracleFail wQueries initState (by simp [runTrace])

/-- Claim C10: at every observable point of a run `calls_used ≤
calls_attempted`, and the emitted report's meta satisfies
`calls_used ≤ calls_attempted ≤ calls_budget`. -/
theorem claim_C10 (o : Oracle) (qs : List Query) :
    (∀ σ ∈ runTrace o qs, σ.calls_used ≤ σ.calls_attempted) ∧
    (mkReport (runAll o qs).1).meta.calls_used ≤ (mkReport (runAll o qs).1).meta.calls_attempted ∧
    (mkReport (runAll o qs).1).meta.calls_attempted ≤ (mkReport (runAll o qs).1).meta.calls_budget := by
  have hfin : (runAll o qs).1 ∈ runTrace o qs := by simp [runTrace]
  obtain ⟨h1, h2⟩ := runTrace_StInv o qs _ hfin
  refine ⟨fun σ hσ => ?_, ?_, ?_⟩
  · obtain ⟨g1, g2⟩ := runTrace_StInv o qs σ hσ
    omega
  · show (runAll o qs).1.calls_used ≤ (runAll o qs).1.calls_attempted
    omega
  · show (runAll o qs).1.calls_attempted ≤ CALL_BUDGET
    omega

theorem claim_C10_witness : initState.calls_used ≤ initState.calls_attempted :=
  (claim_C10 wOracleFail wQueries).1 initState (by simp [runTrace])

/-- Claim C3: once `consecutive_failures` reaches 5 at any observable
point of the run, no further attempt (hence no further query) is ever
made — the final `calls_attempted` equals the one at that point — and
the emitted report's partial flag is true. -/
theorem claim_C3 (o : Oracle) (qs : List Query) :
    ∀ σ ∈ runTrace o qs, CONSECUTIVE_FAIL_LIMIT ≤ σ.consecutive_failures →
      (runAll o qs).1.calls_attempted = σ.calls_attempted ∧
      (mkReport (runAll o qs).1).meta.isPartial = true := by
  intro σ hσ h5
  simp only [runTrace, List.mem_cons, List.mem_append, List.mem_singleton] at hσ
  have hfinal5 : (runAll o qs).1.calls_attempted = σ.calls_attempted ∧
      (runAll o qs).1.consecutive_failures = σ.consecutive_failures := by
    rcases hσ with (rfl | h) | (rfl | h)
    · exact absurd h5 (by simp [initState, CONSECUTIVE_FAIL_LIMIT])
    · exact runQueriesT_freeze o qs initState
        (by simp [initState, CONSECUTIVE_FAIL_LIMIT]) σ h h5
    · exact ⟨rfl, rfl⟩
    · exact (List.not_mem_nil σ h).elim
  refine ⟨hfinal5.1, ?_⟩
  obtain ⟨hI1, hI2⟩ := (runQueriesT_StInv o qs initState stInv_init).1
  have hcf : CONSECUTIVE_FAIL_LIMIT ≤ (runAll o qs).1.consecutive_failures := by
    rw [hfinal5.2]; exact h5
  show decide ((runAll o qs).1.errors ≠ [] ∨ (runAll o qs).1.calls_used < CALL_BUDGET) = true
  rw [decide_eq_true_eq]
  right
  unfold runAll at *
  simp only [CONSECUTIVE_FAIL_LIMIT, CALL_BUDGET] at *
  omega

/-- Final state of an all-transient-failure run, which trips the
circuit breaker. -/
def c3Final : RunState := (runAll wOracleFail wQueries).1

theorem claim_C3_witness :
    (runAll wOracleFail wQueries).1.calls_attempted = c3Final.calls_attempted ∧
    (mkReport (runAll wOracleFail wQueries).1).meta.isPartial = true :=
  claim_C3 wOracleFail wQueries c3Final (by simp [c3Final, runTrace]) (by decide)

/-- Claim C8: `classify_region` returns `local` when the query's
demographic is `local` case-insensitively; otherwise `local` when the
text matches the home-market (Thailand) pattern; otherwise `regional`
when it matches the broader Asia pattern; otherwise `global` — and the
result is always exactly one of the three. -/
theorem claim_C8 (text demographic : String) :
    (pyLower demographic = "local" → classify_region text demographic = "local") ∧
    (pyLower demographic ≠ "local" → reThailand (pyLower text) = true →
      classify_region text demographic = "local") ∧
    (pyLower demographic ≠ "local" → reThailand (pyLower text) = false →
      reAsia (pyLower text) = true → classify_region text demographic = "regional") ∧
    (pyLower demographic ≠ "local" → reThailand (pyLower text) = false →
      reAsia (pyLower text) = false → classify_region text demographic = "global") ∧
    (classify_region text demographic = "local" ∨
      classify_region text demographic = "regional" ∨
      classify_region text demographic = "global") := by
  unfold classify_region
  dsimp only
  by_cases h1 : pyLower demographic = "local"
  · rw [if_pos h1]
    exact ⟨fun _ => rfl, fun h _ => absurd h1 h, fun h _ _ => absurd h1 h,
      fun h _ _ => absurd h1 h, Or.inl rfl⟩
  · rw [if_neg h1]
    by_cases h2 : reThailand (pyLower text) = true
    · rw [if_pos h2]
      refine ⟨fun h => absurd h h1, fun _ _ => rfl, ?_, ?_, Or.inl rfl⟩
      · intro _ hf _
        rw [h2] at hf
        simp at hf
      · intro _ hf _
        rw [h2] at hf
        simp at hf
    · rw [if_neg h2]
      by_cases h3 : reAsia (pyLower text) = true
      · rw [if_pos h3]
        refine ⟨fun h => absurd h h1, fun _ h => absurd h h2, fun _ _ _ => rfl, ?_,
          Or.inr (Or.inl rfl)⟩
        intro _ _ hf
        rw [h3] at hf
        simp at hf
      · rw [if_neg h3]
        exact ⟨fun h => absurd h h1, fun _ h => absurd h h2, fun _ _ h => absurd h h3,
          fun _ _ _ => rfl, Or.inr (Or.inr rfl)⟩

theorem claim_C8_witness :
    classify_region "Bangkok wellness update" "youth" = "local" :=
  (claim_C8 "Bangkok wellness update" "youth").2.1 (by decide) (by decide)

/-- Claim C9: a missing API credential, or a query source whose size is
not exactly 20, terminates the process with a non-zero exit code before
any external request is issued and without writing the output artifact. -/
theorem claim_C9 (apiKey : Option String) (queries : List Query) (o : Oracle)
    (h : apiKey = none ∨ queries.length ≠ CALL_BUDGET) :
    (pyMain apiKey queries o).exitCode ≠ 0 ∧
    (pyMain apiKey queries o).artifact = none ∧
    (pyMain apiKey queries o).requestsIssued = 0 := by
  rcases h with rfl | hlen
  · exact ⟨by simp [pyMain], rfl, rfl⟩
  · cases apiKey with
    | none => exact ⟨by simp [pyMain], rfl, rfl⟩
    | some k =>
      unfold pyMain
      dsimp only
      by_cases hk : k = ""
      · rw [if_pos hk]
        exact ⟨by simp, rfl, rfl⟩
      · rw [if_neg hk, if_neg hlen]
        exact ⟨by simp, rfl, rfl⟩

theorem claim_C9_witness :
    (pyMain (some "key") (List.replicate 19 wQuery) wOracleFail).exitCode ≠ 0 ∧
    (pyMain (some "key") (List.replicate 19 wQuery) wOracleFail).artifact = none ∧
    (pyMain (some "key") (List.replicate 19 wQuery) wOracleFail).requestsIssued = 0 :=
  claim_C9 (some "key") (List.replicate 19 wQuery) wOracleFail (Or.inr (by decide))

/-- Claim C6: no two items of the final report share a `dedup_key`;
the seen-key set at every observable point is exactly the list of keys
of the items emitted so far (in encounter order); the normalizer emits
an item only when its key is fresh (so a later same-key candidate never
displaces an earlier item); and a candidate that is a JSON object with a
non-empty stripped title and a fresh key is always emitted — together:
first-encountered wins and the final list is key-distinct. -/
theorem claim_C6 (o : Oracle) (qs : List Query) :
    (mkReport (runAll o qs).1).items.Pairwise (fun a b => itemDK a ≠ itemDK b) ∧
    (∀ σ ∈ runTrace o qs, σ.seen_keys = σ.all_items.map itemDK) ∧
    (∀ q c σ, σ.seen_keys = σ.all_items.map itemDK →
      (normStep q σ c).all_items = σ.all_items ∨
      ∃ ni, (normStep q σ c).all_items = σ.all_items ++ [ni] ∧
        itemDK ni ∉ σ.all_items.map itemDK) ∧
    (∀ q t s src strat url σ, σ.seen_keys = σ.all_items.map itemDK →
      pyStrip t ≠ "" →
      dedup_key (pyStrip t) ∉ σ.all_items.map itemDK →
      ∃ ni, (normStep q σ (RawVal.item t s src strat url)).all_items = σ.all_items ++ [ni] ∧
        ni.title = pyStrip t) := by
  refine ⟨?_, ?_, ?_, ?_⟩
  · have hfin : (runAll o qs).1 ∈ runTrace o qs := by simp [runTrace]
    have hpw := (runTrace_KeysInv o qs _ hfin).2
    show (pySortItems (runAll o qs).1.all_items).Pairwise (fun a b => itemDK a ≠ itemDK b)
    exact ((pySortItems_perm (runAll o qs).1.all_items).pairwise_iff
      (fun hab => Ne.symm hab)).mpr hpw
  · exact fun σ hσ => (runTrace_KeysInv o qs σ hσ).1
  · intro q c σ hmap
    cases c with
    | junk => exact Or.inl rfl
    | item t s src strat url =>
      unfold normStep
      dsimp only
      split_ifs with h1 h2
      · exact Or.inl rfl
      · exact Or.inl rfl
      · right
        refine ⟨_, rfl, ?_⟩
        show dedup_key (pyStrip t) ∉ _
        rw [← hmap]
        exact h2
  · intro q t s src strat url σ hmap ht hdk
    unfold normStep
    dsimp only
    rw [if_neg ht, if_neg (by rw [hmap]; exact hdk)]
    exact ⟨_, rfl, rfl⟩

theorem claim_C6_witness : initState.seen_keys = initState.all_items.map itemDK :=
  (claim_C6 wOracleFail wQueries).2.1 initState (by simp [runTrace])

/-- Claim C7: the final items list is sorted so that reputable-source
items (rank 0) all precede non-reputable ones (rank 1), within equal
rank the lower-cased titles are in ascending code-point order, and among
items with the same sort key the normalizer's emission order is
preserved (stability, expressed as preservation of each key's filter). -/
theorem claim_C7 (o : Oracle) (qs : List Query) :
    (mkReport (runAll o qs).1).items.Pairwise
      (fun a b => reputable_rank a ≤ reputable_rank b ∧
        (reputable_rank a = reputable_rank b →
          listLe (pyLower a.title).toList (pyLower b.title).toList = true)) ∧
    (∀ k, (mkReport (runAll o qs).1).items.filter (fun it => decide (itemKey it = k)) =
      (runAll o qs).1.all_items.filter (fun it => decide (itemKey it = k))) := by
  constructor
  · show (pySortItems (runAll o qs).1.all_items).Pairwise _
    refine (pySortItems_pairwise (runAll o qs).1.all_items).imp ?_
    intro a b hle
    simp only [keyLe, itemKey, Bool.or_eq_true, Bool.and_eq_true, decide_eq_true_eq] at hle
    rcases hle with h | ⟨hEq, hT⟩
    · exact ⟨Nat.le_of_lt h, fun hEq => absurd (hEq ▸ h) (lt_irrefl _)⟩
    · exact ⟨Nat.le_of_eq hEq, fun _ => hT⟩
  · intro k
    show (pySortItems (runAll o qs).1.all_items).filter _ = _
    exact filter_pySortItems (runAll o qs).1.all_items k

theorem claim_C7_witness :
    (mkReport (runAll wOracleFail wQueries).1).items.filter
        (fun it => decide (itemKey it = (0, []))) =
      (runAll wOracleFail wQueries).1.all_items.filter
        (fun it => decide (itemKey it = (0, []))) :=
  (claim_C7 wOracleFail wQueries).2 (0, [])

/-- Claim C4 (amended): for a query that is reached with the breaker
untripped, (a) if the budget already bars any attempt, exactly one
ErrorRecord is appended with `attempts = 0` and message
`"Unknown error"`, and no items are added; (b) if the single attempt
made fails and no retry is allowed (not transient, no budget room for a
retry, or the failure just tripped the breaker), exactly one ErrorRecord
with `attempts = 1` and that error's message is appended, no items;
(c) if both attempts fail, exactly one ErrorRecord with `attempts = 2`
and the second (last) error's message, no items; and (d) queries never
reached because the circuit breaker halted the outer loop produce no
ErrorRecord at all. -/
theorem claim_C4 (o : Oracle) (q : Query) (st : RunState)
    (hcf : st.consecutive_failures < CONSECUTIVE_FAIL_LIMIT) :
    (CALL_BUDGET ≤ st.calls_attempted →
      (runQueryT o q st).1.errors =
        st.errors ++ [⟨q.query_tag, "other", "Unknown error", 0⟩] ∧
      (runQueryT o q st).1.all_items = st.all_items) ∧
    (∀ e1 fs, st.calls_attempted < CALL_BUDGET →
      fetch_single_query o st.fetch = (Except.error e1, fs) →
      (¬ (is_transient_error e1 = true ∧ st.calls_attempted + 1 < CALL_BUDGET) ∨
        CONSECUTIVE_FAIL_LIMIT ≤ st.consecutive_failures + 1) →
      (runQueryT o q st).1.errors =
        st.errors ++ [⟨q.query_tag, "other", pyMsg (some e1), 1⟩] ∧
      (runQueryT o q st).1.all_items = st.all_items) ∧
    (∀ e1 fs e2 fs2, st.calls_attempted < CALL_BUDGET →
      fetch_single_query o st.fetch = (Except.error e1, fs) →
      is_transient_error e1 = true → st.calls_attempted + 1 < CALL_BUDGET →
      st.consecutive_failures + 1 < CONSECUTIVE_FAIL_LIMIT →
      fetch_single_query o fs = (Except.error e2, fs2) →
      (runQueryT o q st).1.errors =
        st.errors ++ [⟨q.query_tag, "other", pyMsg (some e2), 2⟩] ∧
      (runQueryT o q st).1.all_items = st.all_items) ∧
    (∀ qs2 st2, CONSECUTIVE_FAIL_LIMIT ≤ st2.consecutive_failures →
      runQueriesT o qs2 st2 = (st2, [])) := by
  refine ⟨?_, ?_, ?_, fun qs2 st2 h => runQueriesT_stop o qs2 st2 h⟩
  · refine runQueryT_cases o q st (fun r => CALL_BUDGET ≤ st.calls_attempted →
      r.1.errors = st.errors ++ [⟨q.query_tag, "other", "Unknown error", 0⟩] ∧
      r.1.all_items = st.all_items) ?_ ?_ ?_ ?_ ?_
    · intro _ _
      exact ⟨rfl, rfl⟩
    · intro v fs h5 hB hf hB'
      exact absurd hB' (Nat.not_le.mpr hB)
    · intro e1 fs h5 hB hf _ hB'
      exact absurd hB' (Nat.not_le.mpr hB)
    · intro e1 fs v fs2 h5 hB hf htr hB2 h52 hf2 hB'
      exact absurd hB' (Nat.not_le.mpr hB)
    · intro e1 fs e2 fs2 h5 hB hf htr hB2 h52 hf2 hB'
      exact absurd hB' (Nat.not_le.mpr hB)
  · refine runQueryT_cases o q st (fun r => ∀ e1 fs, st.calls_attempted < CALL_BUDGET →
      fetch_single_query o st.fetch = (Except.error e1, fs) →
      (¬ (is_transient_error e1 = true ∧ st.calls_attempted + 1 < CALL_BUDGET) ∨
        CONSECUTIVE_FAIL_LIMIT ≤ st.consecutive_failures + 1) →
      r.1.errors = st.errors ++ [⟨q.query_tag, "other", pyMsg (some e1), 1⟩] ∧
      r.1.all_items = st.all_items) ?_ ?_ ?_ ?_ ?_
    · intro hstop e1 fs hB hf hd
      rcases hstop with h | h
      · exact absurd h (Nat.not_le.mpr hcf)
      · exact absurd h (Nat.not_le.mpr hB)
    · intro v fs' h5 hB' hfok e1 fs hB hferr hd
      rw [hfok] at hferr
      simp at hferr
    · intro e1' fs' h5 hB' hferr' hd' e1 fs hB hferr hd
      rw [hferr'] at hferr
      simp only [Prod.mk.injEq, Except.error.injEq] at hferr
      obtain ⟨he, hfs⟩ := hferr
      subst he
      exact ⟨rfl, rfl⟩
    · intro e1' fs' v fs2 h5 hB' hferr' htr hB2 h52 hfok2 e1 fs hB hferr hd
      rw [hferr'] at hferr
      simp only [Prod.mk.injEq, Except.error.injEq] at hferr
      obtain ⟨he, hfs⟩ := hferr
      subst he
      rcases hd with hd | hd
      · exact absurd ⟨htr, hB2⟩ hd
      · exact absurd hd (Nat.not_le.mpr h52)
    · intro e1' fs' e2 fs2 h5 hB' hferr' htr hB2 h52 hf2 e1 fs hB hferr hd
      rw [hferr'] at hferr
      simp only [Prod.mk.injEq, Except.error.injEq] at hferr
      obtain ⟨he, hfs⟩ := hferr
      subst he
      rcases hd with hd | hd
      · exact absurd ⟨htr, hB2⟩ hd
      · exact absurd hd (Nat.not_le.mpr h52)
  · refine runQueryT_cases o q st (fun r => ∀ e1 fs e2 fs2, st.calls_attempted < CALL_BUDGET →
      fetch_single_query o st.fetch = (Except.error e1, fs) →
      is_transient_error e1 = true → st.calls_attempted + 1 < CALL_BUDGET →
      st.consecutive_failures + 1 < CONSECUTIVE_FAIL_LIMIT →
      fetch_single_query o fs = (Except.error e2, fs2) →
      r.1.errors = st.errors ++ [⟨q.query_tag, "other", pyMsg (some e2), 2⟩] ∧
      r.1.all_items = st.all_items) ?_ ?_ ?_ ?_ ?_
    · intro hstop e1 fs e2 fs2 hB hf htr hB2 h52 hf2
      rcases hstop with h | h
      · exact absurd h (Nat.not_le.mpr hcf)
      · exact absurd h (Nat.not_le.mpr hB)
    · intro v fs' h5 hB' hfok e1 fs e2 fs2 hB hferr htr hB2 h52 hferr2
      rw [hfok] at hferr
      simp at hferr
    · intro e1' fs' h5 hB' hferr' hd' e1 fs e2 fs2 hB hferr htr hB2 h52 hferr2
      rw [hferr'] at hferr
      simp only [Prod.mk.injEq, Except.error.injEq] at hferr
      obtain ⟨he, hfs⟩ := hferr
      subst he
      rcases hd' with hd' | hd'
      · exact absurd ⟨htr, hB2⟩ hd'
      · exact absurd hd' (Nat.not_le.mpr h52)
    · intro e1' fs' v fs2' h5 hB' hferr' htr' hB2' h52' hfok2 e1 fs e2 fs2 hB hferr htr hB2 h52 hferr2
      rw [hferr'] at hferr
      simp only [Prod.mk.injEq, Except.error.injEq] at hferr
      obtain ⟨he, hfs⟩ := hferr
      subst he
      subst hfs
      rw [hfok2] at hferr2
      simp at hferr2
    · intro e1' fs' e2' fs2' h5 hB' hferr' htr' hB2' h52' hferr2' e1 fs e2 fs2 hB hferr htr hB2 h52 hferr2
      rw [hferr'] at hferr
      simp only [Prod.mk.injEq, Except.error.injEq] at hferr
      obtain ⟨he, hfs⟩ := hferr
      subst he
      subst hfs
      rw [hferr2'] at hferr2
      simp only [Prod.mk.injEq, Except.error.injEq] at hferr2
      obtain ⟨he2, hfs2⟩ := hferr2
      subst he2
      exact ⟨rfl, rfl⟩

theorem claim_C4_witness :
    (runQueryT wOracleFail wQuery initState).1.errors =
      initState.errors ++ [⟨wQuery.query_tag, "other",
        pyMsg (some (.timeoutError "timed out")), 2⟩] ∧
    (runQueryT wOracleFail wQuery initState).1.all_items = initState.all_items :=
  (claim_C4 wOracleFail wQuery initState (by decide)).2.2.1
    (.timeoutError "timed out") ⟨false, 1⟩ (.timeoutError "timed out") ⟨false, 2⟩
    (by decide) (by decide) (by decide) (by decide) (by decide) (by decide)

/-- A provider where every odd-numbered request succeeds and every
even-numbered one times out: each of the first ten queries consumes two
attempts (transient failure, then successful retry), exhausting the
20-attempt budget, after which queries 11-20 are reached with no budget
left. -/
def c4Oracle : Oracle := fun i _ =>
  if i % 2 = 0 then Except.error (.timeoutError "timed out")
  else Except.ok (RawVal.junk, RawVal.junk)

/-- Attempt counts of the error records in the emitted report of that
run. -/
def c4Attempts : List Nat :=
  (mkReport (runAll c4Oracle wQueries).1).errors.map ErrorRecord.attempts

/-- Counterexample to claim C4 as stated: the claim says each
ErrorRecord's `attempts` field is 1 or 2, but in the run above the ten
budget-prevented queries each get an ErrorRecord with `attempts = 0`
(and message `"Unknown error"`), because the budget pre-check breaks the
attempt loop before any attempt and `attempts_for_this_query` is still
zero when the record is appended. -/
theorem claim_C4_cex : (0 : Nat) ∈ c4Attempts ∧ c4Attempts.length = 10 := by
  constructor <;> decide

/-- Claim C5 (amended): for a query entered with the breaker untripped
and budget room whose first attempt fails with `e1`, a second (and
final) attempt for that query happens if and only if `e1` is classified
transient, `calls_attempted` after the first attempt is still below the
budget, AND the failure did not just raise `consecutive_failures` to the
breaker limit — the re-checked breaker guard at the top of the attempt
loop can veto a retry that the transient/budget conditions allow. -/
theorem claim_C5 (o : Oracle) (q : Query) (st : RunState) (e1 : CallError) (fs : FetchState)
    (hcf : st.consecutive_failures < CONSECUTIVE_FAIL_LIMIT)
    (hB : st.calls_attempted < CALL_BUDGET)
    (hf : fetch_single_query o st.fetch = (Except.error e1, fs)) :
    (runQueryT o q st).1.calls_attempted = st.calls_attempted + 2 ↔
      (is_transient_error e1 = true ∧ st.calls_attempted + 1 < CALL_BUDGET ∧
        st.consecutive_failures + 1 < CONSECUTIVE_FAIL_LIMIT) := by
  refine runQueryT_cases o q st (fun r =>
    r.1.calls_attempted = st.calls_attempted + 2 ↔
      (is_transient_error e1 = true ∧ st.calls_attempted + 1 < CALL_BUDGET ∧
        st.consecutive_failures + 1 < CONSECUTIVE_FAIL_LIMIT)) ?_ ?_ ?_ ?_ ?_
  · intro hstop
    rcases hstop with h | h
    · exact absurd h (Nat.not_le.mpr hcf)
    · exact absurd h (Nat.not_le.mpr hB)
  · intro v fs' h5 hB' hfok
    rw [hfok] at hf
    simp at hf
  · intro e1' fs' h5 hB' hferr' hd'
    rw [hferr'] at hf
    simp only [Prod.mk.injEq, Except.error.injEq] at hf
    obtain ⟨he, hfs⟩ := hf
    subst he
    show st.calls_attempted + 1 = st.calls_attempted + 2 ↔ _
    constructor
    · intro hA
      exact absurd hA (by omega)
    · intro ⟨hta, hba, hca⟩
      rcases hd' with hd' | hd'
      · exact absurd ⟨hta, hba⟩ hd'
      · exact absurd hd' (Nat.not_le.mpr hca)
  · intro e1' fs' v fs2 h5 hB' hferr' htr hB2 h52 hfok2
    rw [hferr'] at hf
    simp only [Prod.mk.injEq, Except.error.injEq] at hf
    obtain ⟨he, hfs⟩ := hf
    subst he
    obtain ⟨c1, c2, c3, c4, c5⟩ := normalizeResults_sig q v
      ⟨fs2, st.calls_used + 1, st.calls_attempted + 2, 0, st.seen_keys, st.all_items, st.errors⟩
    constructor
    · intro _
      exact ⟨htr, hB2, h52⟩
    · intro _
      rw [c3]
  · intro e1' fs' e2 fs2 h5 hB' hferr' htr hB2 h52 hferr2
    rw [hferr'] at hf
    simp only [Prod.mk.injEq, Except.error.injEq] at hf
    obtain ⟨he, hfs⟩ := hf
    subst he
    constructor
    · intro _
      exact ⟨htr, hB2, h52⟩
    · intro _
      rfl

theorem claim_C5_witness :
    (runQueryT wOracleFail wQuery initState).1.calls_attempted = initState.calls_attempted + 2 ↔
      (is_transient_error (.timeoutError "timed out") = true ∧
        initState.calls_attempted + 1 < CALL_BUDGET ∧
        initState.consecutive_failures + 1 < CONSECUTIVE_FAIL_LIMIT) :=
  claim_C5 wOracleFail wQuery initState (.timeoutError "timed out") ⟨false, 1⟩
    (by decide) (by decide) (by decide)

/-- Claim C5 exactly as the specification states it: a retry happens if
and only if it was the first attempt for the query, the failure is
transient, and `calls_attempted` is still below the budget (no breaker
condition). -/
def claimC5AsWritten : Prop :=
  ∀ (o : Oracle) (q : Query) (st : RunState) (e1 : CallError) (fs : FetchState),
    st.consecutive_failures < CONSECUTIVE_FAIL_LIMIT →
    st.calls_attempted < CALL_BUDGET →
    fetch_single_query o st.fetch = (Except.error e1, fs) →
    ((runQueryT o q st).1.calls_attempted = st.calls_attempted + 2 ↔
      (is_transient_error e1 = true ∧ st.calls_attempted + 1 < CALL_BUDGET))

/-- Controller state right before the third query of an all-timeout
run: two queries have burned two attempts each, so
`calls_attempted = 4` and `consecutive_failures = 4`. -/
def c5St : RunState := (runQueriesT wOracleFail (List.replicate 2 wQuery) initState).1

/-- Counterexample to claim C5 as stated: at `c5St` the next first
attempt fails transiently with budget room (5 < 20), so the claim
promises a retry, but the failure raises `consecutive_failures` to 5
and the re-checked breaker guard vetoes the retry — only one attempt is
made for that query. -/
theorem claim_C5_cex : ¬ claimC5AsWritten := by
  intro h
  have h2 := h wOracleFail wQuery c5St (.timeoutError "timed out") ⟨false, 5⟩
    (by decide) (by decide) (by decide)
  have h3 := h2.mpr ⟨by decide, by decide⟩
  have h4 : (runQueryT wOracleFail wQuery c5St).1.calls_attempted = 5 := by decide
  have h5 : c5St.calls_attempted = 4 := by decide
  omega

/-- Claim C1 (amended): across one run the program issues at most
`CALL_BUDGET + 1 = 21` external provider requests — the at most 20
budget-counted attempts plus at most one schema-downgrade re-issue,
which is not counted against the budget.  The bound assumes a provider
that reports the schema-unsupported rejection only for requests that
actually carried the schema constraint (`SchemaFaithful`); the sticky
downgrade flag then guarantees the re-issue can happen at most once per
run.  The as-stated bound of 20 requests is refuted by
`claim_C1_cex`. -/
theorem claim_C1 (apiKey : Option String) (qs : List Query) (o : Oracle)
    (H : SchemaFaithful o) :
    (pyMain apiKey qs o).requestsIssued ≤ CALL_BUDGET + 1 := by
  cases apiKey with
  | none => simp [pyMain]
  | some k =>
    unfold pyMain
    dsimp only
    by_cases hk : k = ""
    · rw [if_pos hk]
      simp
    · rw [if_neg hk]
      by_cases hlen : qs.length = CALL_BUDGET
      · rw [if_pos hlen]
        dsimp only
        have hreq := runQueriesT_ReqInv o qs H initState reqInv_init
        have hatt := (runQueriesT_StInv o qs initState stInv_init).1.2
        unfold ReqInv at hreq
        show (runQueriesT o qs initState).1.fetch.reqCount ≤ CALL_BUDGET + 1
        by_cases hd : (runQueriesT o qs initState).1.fetch.disabled = true
        · rw [if_pos hd] at hreq
          omega
        · rw [if_neg hd] at hreq
          omega
      · rw [if_neg hlen]
        simp

theorem claim_C1_witness :
    (pyMain (some "key") wQueries wOracleFail).requestsIssued ≤ CALL_BUDGET + 1 :=
  claim_C1 (some "key") wQueries wOracleFail (fun _ => rfl)

/-- A provider whose very first request is rejected with a 400 matching
the schema-unsupported heuristic; every other request succeeds with two
non-object elements. -/
def c1Oracle : Oracle := fun i _ =>
  if i = 0 then Except.error (.httpError 400 "output_config is an unknown field")
  else Except.ok (RawVal.junk, RawVal.junk)

/-- Requests actually issued by the run against that provider. -/
def c1Requests : Nat := (pyMain (some "key") wQueries c1Oracle).requestsIssued

/-- Counterexample to claim C1 as stated: this run issues 21 external
requests, exceeding the claimed total bound of 20 (CALL_BUDGET).  The
first query's schema-constrained request is rejected as unsupported and
re-issued without being counted as an attempt, so 20 counted attempts
produce 21 issued requests. -/
theorem claim_C1_cex : CALL_BUDGET < c1Requests ∧ c1Requests = CALL_BUDGET + 1 := by
  constructor <;> decide
